import Mathlib

/-!
Shallow embedding of the `World` scene/interaction controller of the
model-customizer repository, together with proofs about its
selection, restore, pick, pointer-mapping and texture-application behavior.

Modelling conventions:
* JavaScript object identity of materials is modelled by a numeric `id`
  field; every `new MeshPhongMaterial(...)` allocates a fresh id from the
  world's `nextId` counter (the shared highlight material takes id 0 at
  construction).
* Mutable `mesh.material` slots are modelled by the map `mats : Nat → Material`
  from object ids to the mesh's active material; the scene-graph tree itself
  (`Object3D`) is immutable.
* The external rendering engine (camera projection, ray geometry) is out of
  scope in the spec; a click is therefore parametrised by a geometry function
  `geom : ℚ × ℚ → Nat → Option ℚ` giving, for the ray cast through the current
  normalized pointer coordinates, the distance from the camera at which that
  ray hits a given object (`none` when it misses it).
* Asynchronous loads are modelled by their resolution events: `updateTexture`
  takes the `LoadResult` of the texture load; model load is `loadModelResolve`.
* Fields of `World` with no bearing on the claims (scene, renderer, lights,
  orbit control, timer, shadow flags) are omitted.
-/

namespace ModelCustomizer

/-- Texture wrapping mode of one axis: three.js `RepeatWrapping` versus the
default clamp-to-edge. -/
inductive Wrapping where
  | clampToEdge
  | repeatWrapping
deriving DecidableEq, Repr

/-- A texture object: its source URL and the wrapping mode of each axis. -/
structure Texture where
  url : String
  wrapS : Wrapping
  wrapT : Wrapping
deriving DecidableEq, Repr

/-- A material object.  `id` models JavaScript object identity (two materials
are the same object exactly when their ids agree); the remaining fields are the
`MeshPhongMaterial` parameters the source sets: color, color map, transparency
flag and opacity. -/
structure Material where
  id : Nat
  color : Option Nat
  map : Option Texture
  transparent : Bool
  opacity : Rat
deriving DecidableEq, Repr

/-- A fresh `new MeshPhongMaterial({ map: texture })` with object id `oid`:
default white color, the given texture as color map, opaque. -/
def freshPhong (oid : Nat) (tex : Texture) : Material :=
  { id := oid, color := some 0xffffff, map := some tex,
    transparent := false, opacity := 1 }

/-- The shared highlight material built in the `World` constructor:
`new MeshPhongMaterial({ color: 0xff0000, transparent: true, opacity: 0.5 })`.
It is the first material the controller allocates, so it takes object id 0. -/
def selectedMaterialInit : Material :=
  { id := 0, color := some 0xff0000, map := none,
    transparent := true, opacity := 1/2 }

/-- A node of the loaded model's scene graph: either a renderable mesh or a
non-mesh grouping node, each with an object id and child nodes. -/
inductive Object3D where
  | mesh (oid : Nat) (children : List Object3D)
  | group (oid : Nat) (children : List Object3D)
deriving Repr

/-- Object id of a scene-graph node. -/
def Object3D.oid : Object3D → Nat
  | .mesh i _ => i
  | .group i _ => i

/-- Whether a scene-graph node is a renderable mesh. -/
def Object3D.isMesh : Object3D → Bool
  | .mesh _ _ => true
  | .group _ _ => false

mutual

/-- Object ids of the renderable meshes of a node's subtree in `traverse`
(preorder) order: the node itself first, then its children recursively. -/
def Object3D.meshIds : Object3D → List Nat
  | .mesh oid cs => oid :: meshIdsList cs
  | .group _ cs => meshIdsList cs

/-- Object ids of the renderable meshes of a forest, in traversal order. -/
def meshIdsList : List Object3D → List Nat
  | [] => []
  | o :: os => o.meshIds ++ meshIdsList os

end

/-- The loaded model root (three.js `Group`): its list of immediate children. -/
structure Group where
  children : List Object3D

/-- Geometry of the renderer's DOM element.  The source reads only
`clientWidth` and `clientHeight`; the bounding-rect origin (`left`, `top`)
is carried so that statements can relate viewport coordinates to
element-relative coordinates, but the code never reads it. -/
structure DomElement where
  clientWidth : Rat
  clientHeight : Rat
  left : Rat
  top : Rat

/-- A pointer event's viewport-relative client coordinates. -/
structure MouseEvent where
  clientX : Rat
  clientY : Rat

/-- The scene/interaction controller state (the fields the claims are about). -/
structure World where
  chair : Option Group
  mouse : Rat × Rat
  target : Option Object3D
  tempMaterial : Option Material
  selectedMaterial : Material
  mats : Nat → Material
  nextId : Nat
  domElement : DomElement

/-- World construction (the fields relevant to the claims): no model yet,
pointer at the `Vector2` default (0,0), no selection, no saved material, the
shared highlight material freshly allocated (id 0, so later allocations start
at 1).  `mats0` gives the active material a mesh id carries once the loaded
model supplies it. -/
def World.init (dom : DomElement) (mats0 : Nat → Material) : World :=
  { chair := none
    mouse := (0, 0)
    target := none
    tempMaterial := none
    selectedMaterial := selectedMaterialInit
    mats := mats0
    nextId := 1
    domElement := dom }

/-- Successful resolution of the asynchronous model load: the loaded scene
becomes `chair` (shadow flags and scene insertion have no bearing on the
claims and are omitted). -/
def World.loadModelResolve (w : World) (g : Group) : World :=
  { w with chair := some g }

/-- Pointer tracking `mousemove`: stores
`((clientX / clientWidth) * 2 - 1, -(clientY / clientHeight) * 2 + 1)`
using the event's viewport-relative client coordinates and the renderer
element's client size; nothing else changes. -/
def World.mousemove (w : World) (e : MouseEvent) : World :=
  { w with mouse :=
      (e.clientX / w.domElement.clientWidth * 2 - 1,
       -(e.clientY / w.domElement.clientHeight) * 2 + 1) }

/-- The pointer mapping as the spec words it: normalized device coordinates
relative to the render surface's element bounds, y inverted. -/
def mousemoveSpec (dom : DomElement) (e : MouseEvent) : Rat × Rat :=
  ((e.clientX - dom.left) / dom.clientWidth * 2 - 1,
   -((e.clientY - dom.top) / dom.clientHeight) * 2 + 1)

/-- Ordering of intersection records by distance from the camera. -/
def distLE (a b : Object3D × Rat) : Prop := a.2 ≤ b.2

instance : DecidableRel distLE := fun a b =>
  inferInstanceAs (Decidable (a.2 ≤ b.2))

/-- Modelled from the spec: `Raycaster.intersectObjects` belongs to the
external rendering engine (declared out of scope by the spec), so it is
modelled per the spec's stated contract for this call: it intersects the given
objects only — the model's immediate children the code passes, not their
subtrees — producing one record per renderable mesh the ray hits, ordered by
distance from the camera, nearest first.  `ray oid` is the distance at which
the ray hits object `oid`, `none` when it misses. -/
def intersectObjects (ray : Nat → Option Rat) (objs : List Object3D) :
    List (Object3D × Rat) :=
  List.insertionSort distLE
    (objs.filterMap fun o =>
      if o.isMesh then (ray o.oid).map (fun d => (o, d)) else none)

/-- Material restore: when both a target and a saved material exist, reassign
the saved material to the target; otherwise do nothing. -/
def World.restoreMaterial (w : World) : World :=
  match w.target, w.tempMaterial with
  | some t, some m =>
      { w with mats := fun u => if u = t.oid then m else w.mats u }
  | _, _ => w

/-- Pick / select `click`: no-op without a model; otherwise cast the ray
through the current pointer coordinates, intersect the model's children,
and either (no hit) restore and clear the target, or (hit) restore, make the
nearest hit object the target, save its current material, and give it the
shared highlight material. -/
def World.click (geom : Rat × Rat → Nat → Option Rat) (w : World) : World :=
  match w.chair with
  | none => w
  | some ch =>
    match intersectObjects (geom w.mouse) ch.children with
    | [] => { w.restoreMaterial with target := none }
    | (tobj, _) :: _ =>
      let w1 := w.restoreMaterial
      { w1 with
        target := some tobj
        tempMaterial := some (w1.mats tobj.oid)
        mats := fun u => if u = tobj.oid then w1.selectedMaterial else w1.mats u }

/-- Assign each listed mesh id its own fresh textured material, allocating
object ids from `n` upward in traversal order. -/
def assignFresh (tex : Texture) : List Nat → Nat → (Nat → Material) → (Nat → Material)
  | [], _, mats => mats
  | i :: is, n, mats =>
      assignFresh tex is (n + 1) (fun u => if u = i then freshPhong n tex else mats u)

/-- A loaded texture as `updateTexture` configures it: repeat wrapping on
both axes. -/
def configured (tex : Texture) : Texture :=
  { tex with wrapS := Wrapping.repeatWrapping, wrapT := Wrapping.repeatWrapping }

/-- Successful branch of `updateTexture`: configure the loaded texture to
repeat-wrap on both axes, then traverse the selected target's subtree; the
first renderable mesh encountered makes `tempMaterial` a fresh textured
material, and every renderable mesh (the first included) is assigned its own,
separately allocated, fresh textured material.  Without a target (or a target
with no meshes) nothing is assigned. -/
def World.applyTexture (w : World) (tex : Texture) : World :=
  let texture : Texture := configured tex
  match w.target with
  | none => w
  | some tgt =>
    if tgt.meshIds.isEmpty then w
    else
      { w with
        tempMaterial := some (freshPhong w.nextId texture)
        mats := assignFresh texture tgt.meshIds (w.nextId + 1) w.mats
        nextId := w.nextId + 1 + tgt.meshIds.length }

/-- Result of an asynchronous resource load. -/
inductive LoadResult (α : Type) where
  | ok (val : α)
  | err (msg : String)

/-- Texture application `updateTexture`, by the resolution of its asynchronous
texture load.  The source attaches a `then` handler but — unlike `loadModel` —
no `catch` handler to this promise chain, so on a failed load nothing runs:
the world is unchanged and the rejection is left unhandled.  The boolean
records whether the call left an unhandled rejection behind. -/
def World.updateTexture (w : World) (r : LoadResult Texture) : World × Bool :=
  match r with
  | .ok tex => (w.applyTexture tex, false)
  | .err _ => (w, true)

/-- One user-interaction event on the controller: a pointer move, or a click
whose external ray geometry is `geom`. -/
inductive Event where
  | mousemove (e : MouseEvent)
  | click (geom : Rat × Rat → Nat → Option Rat)

/-- One event step of the controller. -/
def World.step (w : World) : Event → World
  | .mousemove e => w.mousemove e
  | .click geom => w.click geom

/-- Run a sequence of interaction events. -/
def World.run (w : World) (es : List Event) : World :=
  es.foldl World.step w

/-- The selection-state invariant the code actually maintains across clicks:
the saved slot never holds the highlight material; while a target is selected,
a saved material exists, the target's active material is the shared highlight
material, and no other object's active material is the highlight; while no
target is selected, no object's active material is the highlight (but the
saved slot may retain a stale material). -/
def World.Inv (w : World) : Prop :=
  (∀ m, w.tempMaterial = some m → m ≠ w.selectedMaterial) ∧
  (∀ t, w.target = some t →
    (∃ m, w.tempMaterial = some m) ∧
    w.mats t.oid = w.selectedMaterial ∧
    ∀ u, u ≠ t.oid → w.mats u ≠ w.selectedMaterial) ∧
  (w.target = none → ∀ u, w.mats u ≠ w.selectedMaterial)

/-! ### Basic lemmas about the operations -/

instance : IsTotal (Object3D × Rat) distLE := ⟨fun a b => le_total a.2 b.2⟩

instance : IsTrans (Object3D × Rat) distLE :=
  ⟨fun _ _ _ hab hbc => le_trans hab hbc⟩

theorem intersectObjects_sorted (ray : Nat → Option Rat) (objs : List Object3D) :
    List.Sorted distLE (intersectObjects ray objs) :=
  List.sorted_insertionSort distLE _

theorem mem_intersectObjects (ray : Nat → Option Rat) (objs : List Object3D)
    (p : Object3D × Rat) :
    p ∈ intersectObjects ray objs ↔
      p.1 ∈ objs ∧ p.1.isMesh = true ∧ ray p.1.oid = some p.2 := by
  unfold intersectObjects
  rw [(List.perm_insertionSort distLE _).mem_iff, List.mem_filterMap]
  constructor
  · rintro ⟨o, ho, hfo⟩
    by_cases hm : o.isMesh
    · rw [if_pos hm, Option.map_eq_some'] at hfo
      rcases hfo with ⟨d, hd, he⟩
      cases he
      exact ⟨ho, hm, hd⟩
    · rw [if_neg hm] at hfo
      cases hfo
  · rintro ⟨ho, hm, hd⟩
    refine ⟨p.1, ho, ?_⟩
    simp [hm, hd]

theorem intersectObjects_head_le (ray : Nat → Option Rat) (objs : List Object3D)
    (tobj : Object3D) (d : Rat) (rest : List (Object3D × Rat))
    (h : intersectObjects ray objs = (tobj, d) :: rest) :
    ∀ p ∈ intersectObjects ray objs, d ≤ p.2 := by
  intro p hp
  have hs := intersectObjects_sorted ray objs
  rw [h] at hs hp
  rcases List.mem_cons.mp hp with he | hm
  · subst he; exact le_refl _
  · exact (List.pairwise_cons.mp hs).1 p hm

theorem restoreMaterial_of_target_none (w : World) (h : w.target = none) :
    w.restoreMaterial = w := by
  obtain ⟨ch, ms, tg, tm, sel, mats, n, dom⟩ := w
  cases h
  cases tm <;> rfl

theorem restoreMaterial_of_temp_none (w : World) (h : w.tempMaterial = none) :
    w.restoreMaterial = w := by
  obtain ⟨ch, ms, tg, tm, sel, mats, n, dom⟩ := w
  cases h
  cases tg <;> rfl

theorem restoreMaterial_of_some (w : World) (t : Object3D) (m : Material)
    (ht : w.target = some t) (hm : w.tempMaterial = some m) :
    w.restoreMaterial =
      { w with mats := fun u => if u = t.oid then m else w.mats u } := by
  obtain ⟨ch, ms, tg, tm, sel, mats, n, dom⟩ := w
  cases ht
  cases hm
  rfl

theorem restoreMaterial_target (w : World) :
    w.restoreMaterial.target = w.target := by
  obtain ⟨ch, ms, tg, tm, sel, mats, n, dom⟩ := w
  cases tg <;> cases tm <;> rfl

theorem restoreMaterial_tempMaterial (w : World) :
    w.restoreMaterial.tempMaterial = w.tempMaterial := by
  obtain ⟨ch, ms, tg, tm, sel, mats, n, dom⟩ := w
  cases tg <;> cases tm <;> rfl

theorem restoreMaterial_chair (w : World) :
    w.restoreMaterial.chair = w.chair := by
  obtain ⟨ch, ms, tg, tm, sel, mats, n, dom⟩ := w
  cases tg <;> cases tm <;> rfl

theorem restoreMaterial_mouse (w : World) :
    w.restoreMaterial.mouse = w.mouse := by
  obtain ⟨ch, ms, tg, tm, sel, mats, n, dom⟩ := w
  cases tg <;> cases tm <;> rfl

theorem restoreMaterial_selectedMaterial (w : World) :
    w.restoreMaterial.selectedMaterial = w.selectedMaterial := by
  obtain ⟨ch, ms, tg, tm, sel, mats, n, dom⟩ := w
  cases tg <;> cases tm <;> rfl

theorem click_of_chair_none (w : World) (geom : Rat × Rat → Nat → Option Rat)
    (h : w.chair = none) : w.click geom = w := by
  unfold World.click
  rw [h]

theorem click_of_no_hit (w : World) (geom : Rat × Rat → Nat → Option Rat)
    (ch : Group) (hch : w.chair = some ch)
    (hint : intersectObjects (geom w.mouse) ch.children = []) :
    w.click geom = { w.restoreMaterial with target := none } := by
  unfold World.click
  rw [hch]
  dsimp only
  rw [hint]

theorem click_of_hit (w : World) (geom : Rat × Rat → Nat → Option Rat)
    (ch : Group) (tobj : Object3D) (d : Rat) (rest : List (Object3D × Rat))
    (hch : w.chair = some ch)
    (hint : intersectObjects (geom w.mouse) ch.children = (tobj, d) :: rest) :
    w.click geom =
      { w.restoreMaterial with
        target := some tobj
        tempMaterial := some (w.restoreMaterial.mats tobj.oid)
        mats := fun u =>
          if u = tobj.oid then w.restoreMaterial.selectedMaterial
          else w.restoreMaterial.mats u } := by
  unfold World.click
  rw [hch]
  dsimp only
  rw [hint]

/-- After a restore in a state satisfying the invariant, no object's active
material is the highlight material. -/
theorem restoreMaterial_mats_ne_selected (w : World) (h : w.Inv) :
    ∀ u, w.restoreMaterial.mats u ≠ w.selectedMaterial := by
  intro u
  rcases h with ⟨h1, h2, h3⟩
  rcases ht : w.target with _ | t
  · rw [restoreMaterial_of_target_none w ht]
    exact h3 ht u
  · rcases hm : w.tempMaterial with _ | m
    · rcases (h2 t ht).1 with ⟨m, hm2⟩
      rw [hm] at hm2
      cases hm2
    · rw [restoreMaterial_of_some w t m ht hm]
      by_cases hu : u = t.oid
      · simpa [hu] using h1 m hm
      · simpa [hu] using (h2 t ht).2.2 u hu

/-! ### Invariant preservation over event sequences -/

theorem run_nil (w : World) : w.run [] = w := rfl

theorem run_append (w : World) (es : List Event) (e : Event) :
    w.run (es ++ [e]) = (w.run es).step e := by
  unfold World.run
  rw [List.foldl_append]
  rfl

theorem inv_mousemove (w : World) (h : w.Inv) (e : MouseEvent) :
    (w.mousemove e).Inv := h

theorem inv_click (w : World) (h : w.Inv) (geom : Rat × Rat → Nat → Option Rat) :
    (w.click geom).Inv := by
  rcases hch : w.chair with _ | ch
  · rw [click_of_chair_none w geom hch]
    exact h
  · rcases hint : intersectObjects (geom w.mouse) ch.children with _ | ⟨⟨tobj, d⟩, rest⟩
    · rw [click_of_no_hit w geom ch hch hint]
      refine ⟨?_, ?_, ?_⟩
      · intro m hm
        have hm2 : w.tempMaterial = some m := by
          rw [← restoreMaterial_tempMaterial w]
          exact hm
        have := h.1 m hm2
        rw [show ({ w.restoreMaterial with target := none } : World).selectedMaterial
              = w.selectedMaterial from restoreMaterial_selectedMaterial w]
        exact this
      · intro t ht
        cases ht
      · intro _ u
        rw [show ({ w.restoreMaterial with target := none } : World).selectedMaterial
              = w.selectedMaterial from restoreMaterial_selectedMaterial w]
        exact restoreMaterial_mats_ne_selected w h u
    · rw [click_of_hit w geom ch tobj d rest hch hint]
      have hsel : w.restoreMaterial.selectedMaterial = w.selectedMaterial :=
        restoreMaterial_selectedMaterial w
      refine ⟨?_, ?_, ?_⟩
      · intro m hm
        have hm2 : m = w.restoreMaterial.mats tobj.oid := by
          cases hm
          rfl
        rw [hm2, hsel]
        exact restoreMaterial_mats_ne_selected w h tobj.oid
      · intro t ht
        have ht2 : tobj = t := by
          cases ht
          rfl
        subst ht2
        refine ⟨⟨w.restoreMaterial.mats tobj.oid, rfl⟩, ?_, ?_⟩
        · simp [hsel]
        · intro u hu
          simp only [hsel]
          rw [if_neg hu]
          exact restoreMaterial_mats_ne_selected w h u
      · intro hnone
        cases hnone

theorem inv_step (w : World) (h : w.Inv) (e : Event) : (w.step e).Inv := by
  cases e with
  | mousemove ev => exact inv_mousemove w h ev
  | click geom => exact inv_click w h geom

theorem inv_run (w : World) (h : w.Inv) (es : List Event) : (w.run es).Inv := by
  induction es generalizing w with
  | nil => exact h
  | cons e es ih => exact ih (w.step e) (inv_step w h e)

/-- Whenever a run of interaction events from a state with no selection ends
with a target selected, the selection stems from a click whose nearest
intersection was that target, and the saved-material slot holds exactly the
material the target carried, after the then-current selection was restored, at
the moment of that click. -/
theorem run_selection_history (w0 : World) (htg : w0.target = none)
    (es : List Event) :
    ∀ t, (w0.run es).target = some t →
      ∃ es1 geom es2 ch d rest,
        es = es1 ++ Event.click geom :: es2 ∧
        (w0.run es1).chair = some ch ∧
        intersectObjects (geom (w0.run es1).mouse) ch.children = (t, d) :: rest ∧
        (w0.run es).tempMaterial =
          some ((w0.run es1).restoreMaterial.mats t.oid) := by
  induction es using List.reverseRecOn with
  | nil =>
    intro t ht
    rw [run_nil, htg] at ht
    cases ht
  | append_singleton es e ih =>
    intro t ht
    rw [run_append] at ht
    cases e with
    | mousemove ev =>
      have ht2 : (w0.run es).target = some t := ht
      rcases ih t ht2 with ⟨es1, geom, es2, ch, d, rest, he, hch, hint, htemp⟩
      refine ⟨es1, geom, es2 ++ [Event.mousemove ev], ch, d, rest, ?_, hch, hint, ?_⟩
      · rw [he]
        simp
      · rw [run_append]
        exact htemp
    | click geom2 =>
      rcases hch : (w0.run es).chair with _ | ch
      · rw [show (w0.run es).step (Event.click geom2) = (w0.run es).click geom2 from rfl,
           click_of_chair_none (w0.run es) geom2 hch] at ht
        rcases ih t ht with ⟨es1, geom, es2, ch, d, rest, he, hch2, hint, htemp⟩
        refine ⟨es1, geom, es2 ++ [Event.click geom2], ch, d, rest, ?_, hch2, hint, ?_⟩
        · rw [he]
          simp
        · rw [run_append,
             show (w0.run es).step (Event.click geom2) = (w0.run es).click geom2 from rfl,
             click_of_chair_none (w0.run es) geom2 hch]
          exact htemp
      · rcases hint : intersectObjects (geom2 (w0.run es).mouse) ch.children with
          _ | ⟨⟨tobj, d⟩, rest⟩
        · rw [show (w0.run es).step (Event.click geom2) = (w0.run es).click geom2 from rfl,
             click_of_no_hit (w0.run es) geom2 ch hch hint] at ht
          cases ht
        · rw [show (w0.run es).step (Event.click geom2) = (w0.run es).click geom2 from rfl,
             click_of_hit (w0.run es) geom2 ch tobj d rest hch hint] at ht
          have ht2 : tobj = t := by
            cases ht
            rfl
          subst ht2
          refine ⟨es, geom2, [], ch, d, rest, by simp, hch, hint, ?_⟩
          rw [run_append,
             show (w0.run es).step (Event.click geom2) = (w0.run es).click geom2 from rfl,
             click_of_hit (w0.run es) geom2 ch tobj d rest hch hint]

/-! ### Concrete fixtures used by witnesses and counterexamples -/

/-- A plain green material, standing for a material that arrived with the
loaded model (object id 100, distinct from anything the controller allocates). -/
def baseMat : Material :=
  { id := 100, color := some 0x00ff00, map := none, transparent := false, opacity := 1 }

/-- DOM element geometry of a 400 by 300 render surface at the viewport origin. -/
def dom0 : DomElement :=
  { clientWidth := 400, clientHeight := 300, left := 0, top := 0 }

/-- A loaded two-part model: two sibling meshes with object ids 1 and 2. -/
def chair0 : Group := ⟨[Object3D.mesh 1 [], Object3D.mesh 2 []]⟩

/-- The controller right after construction and model-load resolution. -/
def WB : World := (World.init dom0 (fun _ => baseMat)).loadModelResolve chair0

/-- Ray geometry hitting only mesh 1, at distance 3. -/
def geomHit1 : Rat × Rat → Nat → Option Rat :=
  fun _ i => if i = 1 then some 3 else none

/-- Ray geometry hitting only mesh 2, at distance 4. -/
def geomHit2 : Rat × Rat → Nat → Option Rat :=
  fun _ i => if i = 2 then some 4 else none

/-- Ray geometry hitting both meshes, mesh 2 nearer (distance 3 versus 5). -/
def geomBoth : Rat × Rat → Nat → Option Rat :=
  fun _ i => if i = 1 then some 5 else if i = 2 then some 3 else none

/-- Ray geometry that misses everything. -/
def geomMiss : Rat × Rat → Nat → Option Rat := fun _ _ => none

theorem WB_inv : WB.Inv := by
  refine ⟨?_, ?_, ?_⟩
  · intro m hm
    simp [WB, World.init, World.loadModelResolve] at hm
  · intro t ht
    simp [WB, World.init, World.loadModelResolve] at ht
  · intro _ u
    show baseMat ≠ selectedMaterialInit
    decide

/-! ### Claim theorems -/

/-- C7: no-model safety — while the model slot is `none`, a click performs no
scene or material mutation and changes no selection state: the operation is a
total function that returns the state unchanged (so it can raise no error). -/
theorem no_model_click_noop (w : World) (geom : Rat × Rat → Nat → Option Rat)
    (h : w.chair = none) : w.click geom = w :=
  click_of_chair_none w geom h

/-- Witness for C7, at the freshly constructed controller before model load. -/
theorem no_model_click_noop_witness :
    (World.init dom0 (fun _ => baseMat)).chair = none ∧
    (World.init dom0 (fun _ => baseMat)).click geomHit1 =
      World.init dom0 (fun _ => baseMat) :=
  ⟨rfl, no_model_click_noop _ geomHit1 rfl⟩

/-- C10: an empty-space click while no target is selected is a complete
no-op — even when a stale saved material is still held — because material
restoration requires both an active target and a saved material. -/
theorem empty_click_no_selection_noop (w : World)
    (geom : Rat × Rat → Nat → Option Rat)
    (htg : w.target = none)
    (hno : ∀ ch, w.chair = some ch →
      intersectObjects (geom w.mouse) ch.children = []) :
    w.click geom = w := by
  rcases hch : w.chair with _ | ch
  · exact click_of_chair_none w geom hch
  · rw [click_of_no_hit w geom ch hch (hno ch hch),
      restoreMaterial_of_target_none w htg]
    obtain ⟨c, ms, tg, tm, sel, mats, n, dom⟩ := w
    cases htg
    rfl

/-- A controller state holding a stale saved material with no active
selection, as left behind by select-then-empty-click. -/
def WStale : World := { WB with tempMaterial := some baseMat }

/-- Witness for C10, at a state with a stale saved material. -/
theorem empty_click_no_selection_noop_witness :
    WStale.target = none ∧ WStale.click geomMiss = WStale :=
  ⟨rfl, empty_click_no_selection_noop WStale geomMiss rfl
    (fun ch hch => by cases hch; rfl)⟩

/-- C3: restore round-trip — if part A (not currently selected) is selected by
a click whose nearest hit is A, and then a click occurs whose ray intersects
nothing, A's active material is restored to exactly the material object it had
immediately before selection, and the selection is cleared. -/
theorem restore_round_trip (w : World)
    (geom1 geom2 : Rat × Rat → Nat → Option Rat)
    (ch : Group) (A : Object3D) (d : Rat) (rest : List (Object3D × Rat))
    (hch : w.chair = some ch)
    (h1 : intersectObjects (geom1 w.mouse) ch.children = (A, d) :: rest)
    (h2 : intersectObjects (geom2 w.mouse) ch.children = [])
    (hA : ∀ b, w.target = some b → b.oid ≠ A.oid) :
    ((w.click geom1).click geom2).mats A.oid = w.mats A.oid ∧
    ((w.click geom1).click geom2).target = none := by
  have hrA : w.restoreMaterial.mats A.oid = w.mats A.oid := by
    rcases ht : w.target with _ | b
    · rw [restoreMaterial_of_target_none w ht]
    · rcases hm : w.tempMaterial with _ | m
      · rw [restoreMaterial_of_temp_none w hm]
      · rw [restoreMaterial_of_some w b m ht hm]
        show (if A.oid = b.oid then m else w.mats A.oid) = w.mats A.oid
        exact if_neg (fun he => hA b ht (by rw [he]))
  have hw1 := click_of_hit w geom1 ch A d rest hch h1
  have hW1chair : (w.click geom1).chair = some ch := by
    rw [hw1]
    show w.restoreMaterial.chair = some ch
    rw [restoreMaterial_chair]
    exact hch
  have hW1mouse : (w.click geom1).mouse = w.mouse := by
    rw [hw1]
    exact restoreMaterial_mouse w
  have hint2 : intersectObjects (geom2 (w.click geom1).mouse) ch.children = [] := by
    rw [hW1mouse]
    exact h2
  have hw2 := click_of_no_hit (w.click geom1) geom2 ch hW1chair hint2
  have hW1tg : (w.click geom1).target = some A := by
    rw [hw1]
  have hW1tm : (w.click geom1).tempMaterial =
      some (w.restoreMaterial.mats A.oid) := by
    rw [hw1]
  constructor
  · rw [hw2]
    show ((w.click geom1).restoreMaterial).mats A.oid = w.mats A.oid
    rw [restoreMaterial_of_some (w.click geom1) A (w.restoreMaterial.mats A.oid)
      hW1tg hW1tm]
    show (if A.oid = A.oid then w.restoreMaterial.mats A.oid
      else (w.click geom1).mats A.oid) = w.mats A.oid
    rw [if_pos rfl]
    exact hrA
  · rw [hw2]

/-- Witness for C3: select mesh 1, click empty space; mesh 1's material is
back to the model's original and the selection is cleared. -/
theorem restore_round_trip_witness :
    (WB.chair = some chair0) ∧
    ((WB.click geomHit1).click geomMiss).mats (Object3D.mesh 1 []).oid =
      WB.mats (Object3D.mesh 1 []).oid ∧
    ((WB.click geomHit1).click geomMiss).target = none :=
  ⟨rfl, (restore_round_trip WB geomHit1 geomMiss chair0 (Object3D.mesh 1 []) 3 []
      rfl rfl rfl (fun b hb => by cases hb)).1,
    (restore_round_trip WB geomHit1 geomMiss chair0 (Object3D.mesh 1 []) 3 []
      rfl rfl rfl (fun b hb => by cases hb)).2⟩

/-- C8: idempotent reselect — clicking the already-selected part A again
leaves A selected with the highlight material active, and the saved original
material is unchanged (restore happens before the re-save, so the highlight
material is never captured as the original). -/
theorem idempotent_reselect (w : World) (geom : Rat × Rat → Nat → Option Rat)
    (ch : Group) (A : Object3D) (d : Rat) (rest : List (Object3D × Rat))
    (m : Material)
    (hInv : w.Inv)
    (hch : w.chair = some ch)
    (htg : w.target = some A)
    (htm : w.tempMaterial = some m)
    (h1 : intersectObjects (geom w.mouse) ch.children = (A, d) :: rest) :
    (w.click geom).target = some A ∧
    (w.click geom).mats A.oid = w.selectedMaterial ∧
    (w.click geom).tempMaterial = some m ∧
    m ≠ w.selectedMaterial := by
  have hr := restoreMaterial_of_some w A m htg htm
  have hw1 := click_of_hit w geom ch A d rest hch h1
  refine ⟨?_, ?_, ?_, hInv.1 m htm⟩
  · rw [hw1]
  · rw [hw1]
    show (if A.oid = A.oid then w.restoreMaterial.selectedMaterial
      else w.restoreMaterial.mats A.oid) = w.selectedMaterial
    rw [if_pos rfl, restoreMaterial_selectedMaterial]
  · rw [hw1]
    show some (w.restoreMaterial.mats A.oid) = some m
    rw [hr]
    show some (if A.oid = A.oid then m else w.mats A.oid) = some m
    rw [if_pos rfl]

/-- A controller state with mesh 1 selected: its original material saved and
the highlight material active on it. -/
def WSel : World := WB.click geomHit1

/-- Witness for C8: reselecting mesh 1 keeps it selected and highlighted with
the same saved original, which is not the highlight material. -/
theorem idempotent_reselect_witness :
    WSel.Inv ∧
    (WSel.click geomHit1).target = some (Object3D.mesh 1 []) ∧
    (WSel.click geomHit1).mats (Object3D.mesh 1 []).oid = WSel.selectedMaterial ∧
    (WSel.click geomHit1).tempMaterial = some baseMat ∧
    baseMat ≠ WSel.selectedMaterial := by
  have hI : WSel.Inv := inv_click WB WB_inv geomHit1
  have h := idempotent_reselect WSel geomHit1 chair0 (Object3D.mesh 1 []) 3 []
    baseMat hI rfl rfl rfl rfl
  exact ⟨hI, h.1, h.2.1, h.2.2.1, h.2.2.2⟩

/-- C2: selection exclusivity — after any event sequence from an
invariant-satisfying state, at most one object id carries the highlight
material as its active material; and clicking a part while a different part is
selected removes the highlight from the previously selected part. -/
theorem selection_exclusivity (w0 : World) (hInv : w0.Inv) (es : List Event) :
    (∀ u v : Nat,
      (w0.run es).mats u = (w0.run es).selectedMaterial →
      (w0.run es).mats v = (w0.run es).selectedMaterial → u = v) ∧
    (∀ geom a ch tobj d rest,
      (w0.run es).target = some a →
      (w0.run es).chair = some ch →
      intersectObjects (geom (w0.run es).mouse) ch.children = (tobj, d) :: rest →
      tobj.oid ≠ a.oid →
      ((w0.run es).click geom).mats a.oid ≠
        ((w0.run es).click geom).selectedMaterial) := by
  have hI := inv_run w0 hInv es
  constructor
  · intro u v hu hv
    rcases ht : (w0.run es).target with _ | t
    · exact absurd hu (hI.2.2 ht u)
    · have h2 := hI.2.1 t ht
      rcases eq_or_ne u t.oid with hu2 | hu2
      · rcases eq_or_ne v t.oid with hv2 | hv2
        · rw [hu2, hv2]
        · exact absurd hv (h2.2.2 v hv2)
      · exact absurd hu (h2.2.2 u hu2)
  · intro geom a ch tobj d rest ht hch hint hne
    rcases (hI.2.1 a ht).1 with ⟨m, hm⟩
    have hr := restoreMaterial_of_some (w0.run es) a m ht hm
    rw [click_of_hit (w0.run es) geom ch tobj d rest hch hint]
    show (if a.oid = tobj.oid then (w0.run es).restoreMaterial.selectedMaterial
      else (w0.run es).restoreMaterial.mats a.oid) ≠
      (w0.run es).restoreMaterial.selectedMaterial
    rw [if_neg (fun he => hne (by rw [he]))]
    rw [hr]
    show (if a.oid = a.oid then m else (w0.run es).mats a.oid) ≠
      (w0.run es).selectedMaterial
    rw [if_pos rfl]
    exact hI.1 m hm

/-- Witness for C2: with mesh 1 selected, clicking mesh 2 removes the
highlight from mesh 1. -/
theorem selection_exclusivity_witness :
    WB.Inv ∧
    ((WB.run [Event.click geomHit1]).click geomHit2).mats
        (Object3D.mesh 1 []).oid ≠
      ((WB.run [Event.click geomHit1]).click geomHit2).selectedMaterial :=
  ⟨WB_inv, (selection_exclusivity WB WB_inv [Event.click geomHit1]).2 geomHit2
    (Object3D.mesh 1 []) chair0 (Object3D.mesh 2 []) 4 [] rfl rfl rfl
    (by decide)⟩

/-- C1 (amended): at every point reachable by interaction events from an
invariant-satisfying state with no selection, if a sub-mesh is selected then
its active material is the shared highlight material, no other object carries
the highlight, and the single saved-material slot holds exactly the material
the target carried — after the previous selection was restored — at the click
that selected it (so the slot never holds the highlight material).  When no
sub-mesh is selected, the slot may retain a stale saved material from the most
recently cleared selection, though never the highlight material. -/
theorem selection_state_invariant (w0 : World) (hInv : w0.Inv)
    (htg : w0.target = none) (es : List Event) :
    (∀ m, (w0.run es).tempMaterial = some m →
      m ≠ (w0.run es).selectedMaterial) ∧
    (∀ t, (w0.run es).target = some t →
      (w0.run es).mats t.oid = (w0.run es).selectedMaterial ∧
      (∀ u, u ≠ t.oid → (w0.run es).mats u ≠ (w0.run es).selectedMaterial) ∧
      ∃ es1 geom es2 ch d rest,
        es = es1 ++ Event.click geom :: es2 ∧
        (w0.run es1).chair = some ch ∧
        intersectObjects (geom (w0.run es1).mouse) ch.children = (t, d) :: rest ∧
        (w0.run es).tempMaterial =
          some ((w0.run es1).restoreMaterial.mats t.oid)) := by
  have hI := inv_run w0 hInv es
  exact ⟨hI.1, fun t ht => ⟨(hI.2.1 t ht).2.1, (hI.2.1 t ht).2.2,
    run_selection_history w0 htg es t ht⟩⟩

/-- Counterexample to C1 as stated: after selecting mesh 1 and then clicking
empty space — a two-click sequence — no sub-mesh is selected, yet the
saved-material slot still holds a material (the code clears the target but
never the slot). -/
theorem selection_state_cex :
    (WB.run [Event.click geomHit1, Event.click geomMiss]).target = none ∧
    (WB.run [Event.click geomHit1, Event.click geomMiss]).tempMaterial ≠ none :=
  ⟨rfl, by decide⟩

/-- Witness for C1 (amended): after one click selecting mesh 1, the target's
active material is the highlight material. -/
theorem selection_state_invariant_witness :
    WB.Inv ∧ WB.target = none ∧
    (WB.run [Event.click geomHit1]).mats (Object3D.mesh 1 []).oid =
      (WB.run [Event.click geomHit1]).selectedMaterial :=
  ⟨WB_inv, rfl,
    ((selection_state_invariant WB WB_inv rfl [Event.click geomHit1]).2
      (Object3D.mesh 1 []) rfl).1⟩

/-- C4: pick intersects the model's immediate child parts only (a record
appears in the intersection exactly for a ray-hit renderable mesh among the
immediate children, never a deeper descendant), the intersection list is
ordered by distance from the camera nearest first, and when it is nonempty its
head — an object minimizing distance — becomes the selected target. -/
theorem pick_nearest (w : World) (geom : Rat × Rat → Nat → Option Rat)
    (ch : Group) (hch : w.chair = some ch) :
    (∀ p : Object3D × Rat,
      p ∈ intersectObjects (geom w.mouse) ch.children ↔
        p.1 ∈ ch.children ∧ p.1.isMesh = true ∧
        geom w.mouse p.1.oid = some p.2) ∧
    List.Sorted distLE (intersectObjects (geom w.mouse) ch.children) ∧
    (∀ tobj d rest,
      intersectObjects (geom w.mouse) ch.children = (tobj, d) :: rest →
      (w.click geom).target = some tobj ∧
      ∀ p ∈ intersectObjects (geom w.mouse) ch.children, d ≤ p.2) := by
  refine ⟨fun p => mem_intersectObjects _ _ p, intersectObjects_sorted _ _, ?_⟩
  intro tobj d rest hint
  refine ⟨?_, intersectObjects_head_le _ _ tobj d rest hint⟩
  rw [click_of_hit w geom ch tobj d rest hch hint]

/-- Witness for C4: with two parts overlapping along the ray (mesh 2 at
distance 3, mesh 1 at distance 5), the nearer mesh 2 is selected. -/
theorem pick_nearest_witness :
    WB.chair = some chair0 ∧
    (WB.click geomBoth).target = some (Object3D.mesh 2 []) :=
  ⟨rfl, ((pick_nearest WB geomBoth chair0 rfl).2.2 (Object3D.mesh 2 []) 3
    [(Object3D.mesh 1 [], 5)] rfl).1⟩

/-- C6 (amended): mousemove stores
`((clientX / clientWidth) * 2 - 1, -(clientY / clientHeight) * 2 + 1)` — the
viewport-relative client coordinates scaled by the element's client size, y
inverted — and changes nothing else.  Exactly when the element's bounding box
sits at the viewport origin, this coincides with NDC relative to the element
bounds, lies in [-1, 1] on each axis for pointers inside the element, maps the
element (= viewport) center to (0, 0) and the top-left corner to (-1, 1). -/
theorem pointer_mapping (w : World) (e : MouseEvent)
    (hl : w.domElement.left = 0) (ht : w.domElement.top = 0)
    (hw : 0 < w.domElement.clientWidth) (hh : 0 < w.domElement.clientHeight)
    (hx0 : 0 ≤ e.clientX) (hx1 : e.clientX ≤ w.domElement.clientWidth)
    (hy0 : 0 ≤ e.clientY) (hy1 : e.clientY ≤ w.domElement.clientHeight) :
    (w.mousemove e).mouse =
      (e.clientX / w.domElement.clientWidth * 2 - 1,
       -(e.clientY / w.domElement.clientHeight) * 2 + 1) ∧
    (w.mousemove e).mouse = mousemoveSpec w.domElement e ∧
    (-1 ≤ (w.mousemove e).mouse.1 ∧ (w.mousemove e).mouse.1 ≤ 1 ∧
     -1 ≤ (w.mousemove e).mouse.2 ∧ (w.mousemove e).mouse.2 ≤ 1) ∧
    (e.clientX = w.domElement.clientWidth / 2 →
      e.clientY = w.domElement.clientHeight / 2 →
      (w.mousemove e).mouse = (0, 0)) ∧
    (e.clientX = 0 → e.clientY = 0 → (w.mousemove e).mouse = (-1, 1)) ∧
    ((w.mousemove e).target = w.target ∧
     (w.mousemove e).tempMaterial = w.tempMaterial ∧
     (w.mousemove e).mats = w.mats ∧
     (w.mousemove e).chair = w.chair ∧
     (w.mousemove e).selectedMaterial = w.selectedMaterial ∧
     (w.mousemove e).nextId = w.nextId ∧
     (w.mousemove e).domElement = w.domElement) := by
  have hq0 : 0 ≤ e.clientX / w.domElement.clientWidth := div_nonneg hx0 hw.le
  have hq1 : e.clientX / w.domElement.clientWidth ≤ 1 := (div_le_one hw).mpr hx1
  have hr0 : 0 ≤ e.clientY / w.domElement.clientHeight := div_nonneg hy0 hh.le
  have hr1 : e.clientY / w.domElement.clientHeight ≤ 1 := (div_le_one hh).mpr hy1
  refine ⟨rfl, ?_, ⟨?_, ?_, ?_, ?_⟩, ?_, ?_, rfl, rfl, rfl, rfl, rfl, rfl, rfl⟩
  · simp [World.mousemove, mousemoveSpec, hl, ht]
  · show -1 ≤ e.clientX / w.domElement.clientWidth * 2 - 1
    linarith
  · show e.clientX / w.domElement.clientWidth * 2 - 1 ≤ 1
    linarith
  · show -1 ≤ -(e.clientY / w.domElement.clientHeight) * 2 + 1
    linarith
  · show -(e.clientY / w.domElement.clientHeight) * 2 + 1 ≤ 1
    linarith
  · intro hcx hcy
    show (e.clientX / w.domElement.clientWidth * 2 - 1,
      -(e.clientY / w.domElement.clientHeight) * 2 + 1) = (0, 0)
    rw [hcx, hcy]
    have hwne : w.domElement.clientWidth ≠ 0 := hw.ne'
    have hhne : w.domElement.clientHeight ≠ 0 := hh.ne'
    rw [Prod.mk.injEq]
    constructor
    · field_simp
      ring
    · field_simp
      ring
  · intro h0x h0y
    show (e.clientX / w.domElement.clientWidth * 2 - 1,
      -(e.clientY / w.domElement.clientHeight) * 2 + 1) = (-1, 1)
    rw [h0x, h0y]
    norm_num

/-- A controller whose render surface element sits at viewport x-offset 100:
a 100 by 100 element with bounding box origin (100, 0). -/
def WOff : World :=
  World.init { clientWidth := 100, clientHeight := 100, left := 100, top := 0 }
    (fun _ => baseMat)

/-- The pointer event at the exact center of that element, in viewport
(client) coordinates. -/
def eCenter : MouseEvent := { clientX := 150, clientY := 50 }

/-- Counterexample to C6 as stated: for a render surface whose element bounds
start at viewport x = 100, the pointer at the element's exact center is stored
as (2, 0) — outside [-1, 1] and not the element-bounds-relative value (0, 0) —
because the code divides the viewport-relative `clientX` by the element width
without subtracting the element's bounding-box origin. -/
theorem pointer_mapping_cex :
    (WOff.mousemove eCenter).mouse = (2, 0) ∧
    ¬((WOff.mousemove eCenter).mouse.1 ≤ 1) ∧
    (WOff.mousemove eCenter).mouse ≠ mousemoveSpec WOff.domElement eCenter ∧
    mousemoveSpec WOff.domElement eCenter = (0, 0) := by
  have h1 : (WOff.mousemove eCenter).mouse = (2, 0) := by
    show ((150 : Rat) / 100 * 2 - 1, -((50 : Rat) / 100) * 2 + 1) = (2, 0)
    rw [Prod.mk.injEq]
    norm_num
  have h2 : mousemoveSpec WOff.domElement eCenter = (0, 0) := by
    show (((150 : Rat) - 100) / 100 * 2 - 1, -(((50 : Rat) - 0) / 100) * 2 + 1) = (0, 0)
    rw [Prod.mk.injEq]
    norm_num
  refine ⟨h1, ?_, ?_, h2⟩
  · rw [h1]
    norm_num
  · rw [h1, h2]
    rw [Ne, Prod.mk.injEq]
    norm_num

/-- Witness for C6 (amended): on a 400 by 300 surface at the viewport origin,
the pointer at the center is stored as (0, 0). -/
theorem pointer_mapping_witness :
    WB.domElement.left = 0 ∧
    (WB.mousemove { clientX := 200, clientY := 150 }).mouse = (0, 0) :=
  ⟨rfl, (pointer_mapping WB { clientX := 200, clientY := 150 } rfl rfl
    (by norm_num [WB, World.init, World.loadModelResolve, dom0])
    (by norm_num [WB, World.init, World.loadModelResolve, dom0])
    (by norm_num) (by norm_num [WB, World.init, World.loadModelResolve, dom0])
    (by norm_num)
    (by norm_num [WB, World.init, World.loadModelResolve, dom0])).2.2.2.1
    (by norm_num [WB, World.init, World.loadModelResolve, dom0])
    (by norm_num [WB, World.init, World.loadModelResolve, dom0])⟩

/-! ### Texture application -/

theorem isMesh_meshIds (o : Object3D) (h : o.isMesh = true) :
    ∃ x xs, o.meshIds = x :: xs ∧ x = o.oid := by
  cases o with
  | mesh i cs => exact ⟨i, meshIdsList cs, rfl, rfl⟩
  | group i cs => simp [Object3D.isMesh] at h

theorem assignFresh_not_mem (tex : Texture) (ids : List Nat) (n : Nat)
    (mats : Nat → Material) (u : Nat) (h : u ∉ ids) :
    assignFresh tex ids n mats u = mats u := by
  have H : ∀ (l : List Nat), u ∉ l → ∀ (n : Nat) (mats : Nat → Material),
      assignFresh tex l n mats u = mats u := by
    intro l
    induction l with
    | nil => intro _ _ _; rfl
    | cons i is ih =>
      intro hl n mats
      have hu : u ≠ i := fun he => hl (he ▸ List.mem_cons_self i is)
      have hus : u ∉ is := fun hm => hl (List.mem_cons_of_mem i hm)
      show assignFresh tex is (n + 1)
        (fun v => if v = i then freshPhong n tex else mats v) u = mats u
      rw [ih hus (n + 1) _]
      exact if_neg hu
  exact H ids h n mats

theorem assignFresh_mem (tex : Texture) (ids : List Nat) (n : Nat)
    (mats : Nat → Material) (u : Nat) (hnd : ids.Nodup) (h : u ∈ ids) :
    ∃ k, k < ids.length ∧
      assignFresh tex ids n mats u = freshPhong (n + k) tex := by
  have H : ∀ (l : List Nat), l.Nodup → u ∈ l → ∀ (n : Nat) (mats : Nat → Material),
      ∃ k, k < l.length ∧ assignFresh tex l n mats u = freshPhong (n + k) tex := by
    intro l
    induction l with
    | nil => intro _ hm; cases hm
    | cons i is ih =>
      intro hnd2 hm n mats
      rcases List.mem_cons.mp hm with he | hm2
      · subst he
        have hni : u ∉ is := (List.nodup_cons.mp hnd2).1
        refine ⟨0, Nat.succ_pos _, ?_⟩
        show assignFresh tex is (n + 1)
          (fun v => if v = u then freshPhong n tex else mats v) u = freshPhong (n + 0) tex
        rw [assignFresh_not_mem tex is (n + 1) _ u hni, if_pos rfl, Nat.add_zero]
      · rcases ih (List.nodup_cons.mp hnd2).2 hm2 (n + 1)
          (fun v => if v = i then freshPhong n tex else mats v) with ⟨k, hk, he2⟩
        refine ⟨k + 1, by simpa using Nat.succ_lt_succ hk, ?_⟩
        show assignFresh tex is (n + 1)
          (fun v => if v = i then freshPhong n tex else mats v) u = freshPhong (n + (k + 1)) tex
        rw [he2]
        congr 1
        omega
  exact H ids hnd h n mats

theorem applyTexture_of_target (w : World) (tgt : Object3D) (tex : Texture)
    (htg : w.target = some tgt) (x : Nat) (xs : List Nat)
    (hme : tgt.meshIds = x :: xs) :
    w.applyTexture tex =
      { w with
        tempMaterial := some (freshPhong w.nextId (configured tex))
        mats := assignFresh (configured tex) tgt.meshIds (w.nextId + 1) w.mats
        nextId := w.nextId + 1 + tgt.meshIds.length } := by
  unfold World.applyTexture
  rw [htg]
  dsimp only
  rw [hme]
  simp [List.isEmpty_cons]

/-- C5 (amended): for every selected target with mesh subtree and every
successfully loaded texture, `updateTexture` configures the texture to
repeat-wrap on both axes, assigns to every renderable mesh in the target's
subtree its own freshly allocated material whose color map is that configured
texture (distinct from every pre-existing material), leaves every other mesh
untouched, and overwrites the saved original-material slot with a separately
allocated fresh material carrying the same texture map — content-identical to,
but not the same object as, the first mesh's new material. -/
theorem texture_application (w : World) (tgt : Object3D) (tex : Texture)
    (htg : w.target = some tgt)
    (hmesh : tgt.isMesh = true)
    (hnd : tgt.meshIds.Nodup)
    (hwf : ∀ u, (w.mats u).id < w.nextId) :
    (w.updateTexture (LoadResult.ok tex)).1.tempMaterial =
      some (freshPhong w.nextId (configured tex)) ∧
    (configured tex).wrapS = Wrapping.repeatWrapping ∧
    (configured tex).wrapT = Wrapping.repeatWrapping ∧
    (∀ i ∈ tgt.meshIds, ∃ k, k < tgt.meshIds.length ∧
      (w.updateTexture (LoadResult.ok tex)).1.mats i =
        freshPhong (w.nextId + 1 + k) (configured tex)) ∧
    (∀ i ∈ tgt.meshIds,
      ((w.updateTexture (LoadResult.ok tex)).1.mats i).map =
        some (configured tex)) ∧
    (∀ i ∈ tgt.meshIds, ∀ u,
      (w.updateTexture (LoadResult.ok tex)).1.mats i ≠ w.mats u) ∧
    (∀ i ∈ tgt.meshIds,
      (w.updateTexture (LoadResult.ok tex)).1.tempMaterial ≠
        some ((w.updateTexture (LoadResult.ok tex)).1.mats i) ∧
      ∃ m2, (w.updateTexture (LoadResult.ok tex)).1.tempMaterial = some m2 ∧
        m2.map = ((w.updateTexture (LoadResult.ok tex)).1.mats i).map) ∧
    (∀ u, u ∉ tgt.meshIds →
      (w.updateTexture (LoadResult.ok tex)).1.mats u = w.mats u) ∧
    (w.updateTexture (LoadResult.ok tex)).1.target = w.target := by
  rcases isMesh_meshIds tgt hmesh with ⟨x, xs, hme, _⟩
  have hup : (w.updateTexture (LoadResult.ok tex)).1 = w.applyTexture tex := rfl
  have heq := applyTexture_of_target w tgt tex htg x xs hme
  have hmem : ∀ i ∈ tgt.meshIds, ∃ k, k < tgt.meshIds.length ∧
      (w.updateTexture (LoadResult.ok tex)).1.mats i =
        freshPhong (w.nextId + 1 + k) (configured tex) := by
    intro i hi
    rw [hup, heq]
    rcases assignFresh_mem (configured tex) tgt.meshIds (w.nextId + 1) w.mats i
      hnd hi with ⟨k, hk, he2⟩
    exact ⟨k, hk, by rw [show ({ w with
      tempMaterial := some (freshPhong w.nextId (configured tex))
      mats := assignFresh (configured tex) tgt.meshIds (w.nextId + 1) w.mats
      nextId := w.nextId + 1 + tgt.meshIds.length } : World).mats =
        assignFresh (configured tex) tgt.meshIds (w.nextId + 1) w.mats from rfl,
      he2, Nat.add_assoc]⟩
  refine ⟨by rw [hup, heq], rfl, rfl, hmem, ?_, ?_, ?_, ?_, by rw [hup, heq]⟩
  · intro i hi
    rcases hmem i hi with ⟨k, _, he2⟩
    rw [he2]
    rfl
  · intro i hi u
    rcases hmem i hi with ⟨k, _, he2⟩
    rw [he2]
    intro hcon
    have hid := congrArg Material.id hcon
    have := hwf u
    simp only [freshPhong] at hid
    omega
  · intro i hi
    rcases hmem i hi with ⟨k, _, he2⟩
    constructor
    · rw [he2, hup, heq]
      intro hcon
      have hid := congrArg (fun o => Option.map Material.id o) hcon
      simp only [freshPhong, Option.map_some'] at hid
      have : w.nextId = w.nextId + 1 + k := by
        simpa using hid
      omega
    · refine ⟨freshPhong w.nextId (configured tex), by rw [hup, heq], ?_⟩
      rw [he2]
      rfl
  · intro u hu
    rw [hup, heq]
    show assignFresh (configured tex) tgt.meshIds (w.nextId + 1) w.mats u = w.mats u
    exact assignFresh_not_mem (configured tex) tgt.meshIds (w.nextId + 1) w.mats u hu

/-- A controller state with mesh 1 selected as the target (its subtree is just
itself), saved original `baseMat`, and 101 materials already allocated. -/
def W5 : World :=
  { chair := some chair0
    mouse := (0, 0)
    target := some (Object3D.mesh 1 [])
    tempMaterial := some baseMat
    selectedMaterial := selectedMaterialInit
    mats := fun _ => baseMat
    nextId := 101
    domElement := dom0 }

/-- The wood texture of the panel's resource list. -/
def T5 : Texture :=
  { url := "img/wood_.jpg", wrapS := Wrapping.clampToEdge, wrapT := Wrapping.clampToEdge }

/-- Counterexample to C5 as stated: after a successful texture load, the saved
slot does not hold the first mesh's generated material object — the code
allocates a separate fresh material for the slot (same texture map, distinct
object identity). -/
theorem texture_application_cex :
    (W5.updateTexture (LoadResult.ok T5)).1.tempMaterial ≠
      some ((W5.updateTexture (LoadResult.ok T5)).1.mats 1) ∧
    (∃ m, (W5.updateTexture (LoadResult.ok T5)).1.tempMaterial = some m ∧
      m.map = ((W5.updateTexture (LoadResult.ok T5)).1.mats 1).map) :=
  ⟨by decide, ⟨freshPhong 101 (configured T5), rfl, rfl⟩⟩

/-- Witness for C5 (amended), applying the wood texture to selected mesh 1. -/
theorem texture_application_witness :
    W5.target = some (Object3D.mesh 1 []) ∧
    (W5.updateTexture (LoadResult.ok T5)).1.tempMaterial =
      some (freshPhong W5.nextId (configured T5)) ∧
    ((W5.updateTexture (LoadResult.ok T5)).1.mats 1).map =
      some (configured T5) :=
  ⟨rfl,
    (texture_application W5 (Object3D.mesh 1 []) T5 rfl rfl (by decide)
      (fun _ => Nat.lt_succ_self 100)).1,
    (texture_application W5 (Object3D.mesh 1 []) T5 rfl rfl (by decide)
      (fun _ => Nat.lt_succ_self 100)).2.2.2.2.1 1 (by decide)⟩

/-- C9: the texture-load failure path of `updateTexture` — the source attaches
no rejection handler (unlike `loadModel`), so on a failed load nothing is
caught or logged and the rejection is left unhandled, while every mesh's
active material and the saved-material slot are left unchanged. -/
theorem updateTexture_failure (w : World) (msg : String) :
    (w.updateTexture (LoadResult.err msg)).1 = w ∧
    (w.updateTexture (LoadResult.err msg)).2 = true :=
  ⟨rfl, rfl⟩

end ModelCustomizer
